import Mathlib

/-!
A shallow embedding of `src/ChessVar.py` (class `ChessVar`), the rules engine
for a Falcon/Hunter chess variant, together with proofs settling the frozen
claims about its specification.

Modelling conventions:
* A board square's content is `Option Char` (`none` = the empty string `''`);
  pieces keep their one-character Python names (`'p'`, `'K'`, `'f'`, ...).
* The 8×8 grid `_board` is embedded as a total function
  `Fin 8 → Fin 8 → Option Char`; reads and writes go through `boardGet` /
  `boardSet`, which mirror Python list indexing for the in-range coordinates
  the program actually uses (out-of-range algebraic input is declared a
  caller contract violation by the specification).
* Python `set` values (`_captured_pieces`, `_fairy_pieces`) are embedded as
  duplicate-free `List Char` in insertion order: `set_add` is Python's
  `set.add`, `List.erase` is `set.remove` (guarded by membership, as in the
  source).
* Positions are `Int × Int` pairs exactly as Python's `(row, col)` tuples;
  `convert_to_pos` is `_convert_to_pos`.
* The `while` loop of `_path_is_clear` is embedded fuel-indexed
  (`path_walk`); fuel 16 strictly dominates every walk on an 8×8 board, and
  the termination claim is proved as fuel-sufficiency under the caller's
  straight/diagonal guards.
-/

abbrev Piece := Option Char
abbrev Pos := Int × Int
abbrev Board := Fin 8 → Fin 8 → Piece

/-- An algebraic-notation square: file letter and rank digit characters. -/
structure Square where
  file : Char
  rank : Char
deriving DecidableEq

/-- `[a-h][1-8]` squares: the caller contract of the external interface. -/
def Square.valid (s : Square) : Prop :=
  97 ≤ s.file.toNat ∧ s.file.toNat ≤ 104 ∧ 49 ≤ s.rank.toNat ∧ s.rank.toNat ≤ 56

instance (s : Square) : Decidable s.valid := by
  unfold Square.valid; infer_instance

/-- `ChessVar._convert_to_pos`: `row = 8 - int(square[1])`, `col = ord(square[0]) - ord('a')`. -/
def convert_to_pos (s : Square) : Pos :=
  (8 - ((s.rank.toNat : Int) - 48), (s.file.toNat : Int) - 97)

/-- Python `str.isupper()` on a one-character-or-empty string. -/
def pyIsUpper : Piece → Bool
  | none => false
  | some c => c.isUpper

/-- Read `self._board[r][c]`; `none` outside the 8×8 range. -/
def boardGet (b : Board) (p : Pos) : Piece :=
  if h : 0 ≤ p.1 ∧ p.1 < 8 ∧ 0 ≤ p.2 ∧ p.2 < 8 then
    b ⟨p.1.toNat, by omega⟩ ⟨p.2.toNat, by omega⟩
  else none

/-- Write `self._board[r][c] = v`; no effect outside the 8×8 range. -/
def boardSet (b : Board) (p : Pos) (v : Piece) : Board :=
  if h : 0 ≤ p.1 ∧ p.1 < 8 ∧ 0 ≤ p.2 ∧ p.2 < 8 then
    fun i j => if i = (⟨p.1.toNat, by omega⟩ : Fin 8) ∧ j = (⟨p.2.toNat, by omega⟩ : Fin 8) then v else b i j
  else b

/-- Python `set.add` on the insertion-ordered list model of a set. -/
def set_add (s : List Char) (c : Char) : List Char :=
  if c ∈ s then s else s ++ [c]

/-- The state of `ChessVar`: board, turn (`true` = white), game state string,
per-color captured-piece records and fairy-piece availability. -/
structure ChessVar where
  board : Board
  turn : Bool
  game_state : String
  captured_white : List Char
  captured_black : List Char
  fairy_white : List Char
  fairy_black : List Char

/-- `ChessVar._create_initial_board` row data. -/
def initRows : List (List Piece) :=
  [[some 'r', some 'n', some 'b', some 'q', some 'k', some 'b', some 'n', some 'r'],
   List.replicate 8 (some 'p'),
   List.replicate 8 none,
   List.replicate 8 none,
   List.replicate 8 none,
   List.replicate 8 none,
   List.replicate 8 (some 'P'),
   [some 'R', some 'N', some 'B', some 'Q', some 'K', some 'B', some 'N', some 'R']]

def create_initial_board : Board :=
  fun i j => (((initRows.get? (i : Nat)).getD []).get? (j : Nat)).getD none

/-- `ChessVar.__init__`. -/
def initGame : ChessVar :=
  { board := create_initial_board
    turn := true
    game_state := "UNFINISHED"
    captured_white := []
    captured_black := []
    fairy_white := ['F', 'H']
    fairy_black := ['f', 'h'] }

/-- `ChessVar._is_square_empty`. -/
def is_square_empty (g : ChessVar) (square : Square) : Bool :=
  boardGet g.board (convert_to_pos square) = none

/-- `ChessVar._is_straight_move`. -/
def is_straight_move (f t : Pos) : Bool :=
  decide (f.1 = t.1 ∨ f.2 = t.2)

/-- `ChessVar._is_diagonal_move`. -/
def is_diagonal_move (f t : Pos) : Bool :=
  decide ((f.1 - t.1).natAbs = (f.2 - t.2).natAbs)

/-- `ChessVar._is_legal_knight_move`. -/
def is_legal_knight_move (f t : Pos) : Bool :=
  decide (((f.1 - t.1).natAbs = 2 ∧ (f.2 - t.2).natAbs = 1) ∨
          ((f.1 - t.1).natAbs = 1 ∧ (f.2 - t.2).natAbs = 2))

/-- `ChessVar._is_king_move`. -/
def is_king_move (f t : Pos) : Bool :=
  decide (((f.1 - t.1).natAbs ≤ 1 ∧ (f.2 - t.2).natAbs ≤ 1) ∧
          ¬((f.1 - t.1).natAbs = 0 ∧ (f.2 - t.2).natAbs = 0))

/-- The unit step of `_path_is_clear`:
`1 if to > from else -1 if to < from else 0`. -/
def step1 (a b : Int) : Int :=
  if b > a then 1 else if b < a then -1 else 0

/-- The `while` loop of `ChessVar._path_is_clear`, fuel-indexed: `none` means
the fuel ran out before the walk reached `to_` (the loop would still be
running). -/
def path_walk (bd : Board) (to_ st : Pos) : Pos → Nat → Option Bool
  | _, 0 => none
  | cur, fuel + 1 =>
    if cur = to_ then some true
    else if boardGet bd cur ≠ none then some false
    else path_walk bd to_ st (cur.1 + st.1, cur.2 + st.2) fuel

/-- `ChessVar._path_is_clear`: fuel 16 strictly dominates every walk the
program performs on the 8×8 board (proved below for the guarded calls). -/
def path_is_clear (bd : Board) (f t : Pos) : Bool :=
  (path_walk bd t (step1 f.1 t.1, step1 f.2 t.2)
    (f.1 + step1 f.1 t.1, f.2 + step1 f.2 t.2) 16).getD false

/-- `ChessVar._is_legal_pawn_move`. -/
def is_legal_pawn_move (g : ChessVar) (f t : Pos) (piece : Char) : Bool :=
  let direction : Int := if piece.isLower then 1 else -1
  let start_row : Int := if piece.isUpper then 6 else 1
  if ¬(0 ≤ t.1 ∧ t.1 ≤ 7 ∧ 0 ≤ t.2 ∧ t.2 ≤ 7) then false
  else if f.2 = t.2 then
    if t.1 - f.1 = direction ∧ boardGet g.board t = none then true
    else if f.1 = start_row ∧ t.1 - f.1 = 2 * direction ∧ boardGet g.board t = none ∧
        boardGet g.board (f.1 + direction, f.2) = none then true
    else false
  else if (f.2 - t.2).natAbs = 1 ∧ t.1 - f.1 = direction then
    decide (boardGet g.board t ≠ none ∧ pyIsUpper (boardGet g.board t) ≠ piece.isUpper)
  else false

/-- `ChessVar._is_valid_fairy_piece_move`. -/
def is_valid_fairy_piece_move (g : ChessVar) (f t : Pos) (piece : Char) : Bool :=
  let forward_move : Bool := if piece.isUpper then decide (t.1 < f.1) else decide (t.1 > f.1)
  if piece.toLower = 'f' then
    if forward_move then is_diagonal_move f t && path_is_clear g.board f t
    else is_straight_move f t && path_is_clear g.board f t
  else if piece.toLower = 'h' then
    if forward_move then is_straight_move f t && path_is_clear g.board f t
    else is_diagonal_move f t && path_is_clear g.board f t
  else false

/-- `ChessVar._is_legal_move`. -/
def is_legal_move (g : ChessVar) (f t : Pos) : Bool :=
  match boardGet g.board f with
  | none => false
  | some piece =>
    if piece.isUpper ≠ g.turn then false
    else if piece.toLower = 'p' then is_legal_pawn_move g f t piece
    else if piece.toLower = 'r' then is_straight_move f t && path_is_clear g.board f t
    else if piece.toLower = 'n' then is_legal_knight_move f t
    else if piece.toLower = 'b' then is_diagonal_move f t && path_is_clear g.board f t
    else if piece.toLower = 'q' then
      (is_straight_move f t || is_diagonal_move f t) && path_is_clear g.board f t
    else if piece.toLower = 'k' then is_king_move f t
    else if piece.toLower = 'f' ∨ piece.toLower = 'h' then is_valid_fairy_piece_move g f t piece
    else false

/-- `ChessVar._move_piece`: records any capture (under the key
`'white' if target_piece.islower() else 'black'`, exactly as the source)
and relocates the moving piece. -/
def move_piece (g : ChessVar) (f t : Pos) : ChessVar :=
  let piece := boardGet g.board f
  let g1 :=
    match boardGet g.board t with
    | none => g
    | some tp =>
      if tp.isLower then { g with captured_white := set_add g.captured_white tp }
      else { g with captured_black := set_add g.captured_black tp }
  { g1 with board := boardSet (boardSet g1.board t piece) f none }

/-- `ChessVar._switch_turns`. -/
def switch_turns (g : ChessVar) : ChessVar :=
  { g with turn := !g.turn }

/-- `ChessVar._check_game_over`: reads the piece now occupying `pos` (the
move has already been applied when this runs). -/
def check_game_over (g : ChessVar) (pos : Pos) : ChessVar :=
  match boardGet g.board pos with
  | none => g
  | some tp =>
    if tp.toLower = 'k' then
      { g with game_state := if tp.isUpper then "BLACK_WON" else "WHITE_WON" }
    else g

/-- `ChessVar.make_move`. -/
def make_move (g : ChessVar) (from_square to_square : Square) : Bool × ChessVar :=
  if g.game_state ≠ "UNFINISHED" then (false, g)
  else if boardGet g.board (convert_to_pos to_square) ≠ none ∧
      pyIsUpper (boardGet g.board (convert_to_pos from_square)) =
        pyIsUpper (boardGet g.board (convert_to_pos to_square)) then (false, g)
  else if is_legal_move g (convert_to_pos from_square) (convert_to_pos to_square) = false then
    (false, g)
  else
    (true,
      check_game_over
        (switch_turns (move_piece g (convert_to_pos from_square) (convert_to_pos to_square)))
        (convert_to_pos to_square))

/-- `ChessVar._can_place_fairy_piece`. -/
def can_place_fairy_piece (g : ChessVar) (piece_type : Char) (square : Square) : Bool :=
  if is_square_empty g square = false then false
  else
    let home_rank : List Char := if piece_type.isUpper then ['1', '2'] else ['7', '8']
    if ¬(square.rank ∈ home_rank) then false
    else
      let lost_pieces : List Char :=
        if piece_type.isUpper then g.captured_white else g.captured_black
      let allowed : List Char :=
        if piece_type.isLower then ['q', 'r', 'b', 'n'] else ['Q', 'R', 'B', 'N']
      let has_lost_required_pieces := allowed.any (fun p => decide (p ∈ lost_pieces))
      let fairy : List Char :=
        if piece_type.isUpper then g.fairy_white else g.fairy_black
      let already_placed := decide (fairy.length < 2)
      let can_place_second :=
        !already_placed ||
          (already_placed && decide (2 ≤ (lost_pieces.filter (fun p => decide (p ∈ allowed))).length))
      has_lost_required_pieces && can_place_second

/-- `ChessVar.enter_fairy_piece` (color is case-encoded in `piece_type`,
exactly as the source; note the source performs no turn check). -/
def enter_fairy_piece (g : ChessVar) (piece_type : Char) (square : Square) : Bool × ChessVar :=
  if g.game_state ≠ "UNFINISHED" ∨ can_place_fairy_piece g piece_type square = false ∨
      ¬(piece_type ∈ (if piece_type.isUpper then g.fairy_white else g.fairy_black)) ∨
      is_square_empty g square = false then (false, g)
  else
    let g1 := { g with board := boardSet g.board (convert_to_pos square) (some piece_type) }
    let g2 :=
      if piece_type.isUpper then { g1 with fairy_white := g1.fairy_white.erase piece_type }
      else { g1 with fairy_black := g1.fairy_black.erase piece_type }
    (true, switch_turns g2)

/-- Run a list of moves through `make_move`, reporting whether every move in
the list was accepted alongside the final state. -/
def run_moves : ChessVar → List (Square × Square) → Bool × ChessVar
  | g, [] => (true, g)
  | g, m :: ms =>
    let r := make_move g m.1 m.2
    let rest := run_moves r.2 ms
    (r.1 && rest.1, rest.2)

/-- Opening in which White's bishop reaches f7 and Black's king stays on e8:
the next White move `f7→e8` captures the Black king. -/
def c1_moves : List (Square × Square) :=
  [(⟨'e', '2'⟩, ⟨'e', '4'⟩), (⟨'e', '7'⟩, ⟨'e', '5'⟩), (⟨'f', '1'⟩, ⟨'c', '4'⟩),
   (⟨'d', '7'⟩, ⟨'d', '6'⟩), (⟨'c', '4'⟩, ⟨'f', '7'⟩), (⟨'a', '7'⟩, ⟨'a', '6'⟩)]

def g_c1 : ChessVar := (run_moves initGame c1_moves).2

/-- Game in which Black captures White's knight (on e5) and White then has an
empty home-rank square a2: White's fairy-piece gate should be open. -/
def c2_moves : List (Square × Square) :=
  [(⟨'g', '1'⟩, ⟨'f', '3'⟩), (⟨'e', '7'⟩, ⟨'e', '5'⟩), (⟨'f', '3'⟩, ⟨'e', '5'⟩),
   (⟨'d', '7'⟩, ⟨'d', '6'⟩), (⟨'a', '2'⟩, ⟨'a', '3'⟩), (⟨'d', '6'⟩, ⟨'e', '5'⟩)]

def g_c2 : ChessVar := (run_moves initGame c2_moves).2

/-- A state on Black's turn (after `a2→a3`) whose captured-for-white record
was populated the way the source's own test populates it (`'N'` in the
`'white'` slot); square a2 is empty, on White's home ranks. -/
def g_c5 : ChessVar :=
  { (run_moves initGame [(⟨'a', '2'⟩, ⟨'a', '3'⟩)]).2 with captured_white := ['N'] }

/-- Game in which White captures exactly one Black knight (on c6). -/
def c6_moves_one : List (Square × Square) :=
  [(⟨'d', '2'⟩, ⟨'d', '4'⟩), (⟨'b', '8'⟩, ⟨'c', '6'⟩), (⟨'d', '4'⟩, ⟨'d', '5'⟩),
   (⟨'g', '8'⟩, ⟨'f', '6'⟩), (⟨'d', '5'⟩, ⟨'c', '6'⟩)]

/-- Continuation in which White captures a second Black knight (on e4). -/
def c6_moves_two : List (Square × Square) :=
  c6_moves_one ++
    [(⟨'f', '6'⟩, ⟨'e', '4'⟩), (⟨'d', '1'⟩, ⟨'d', '3'⟩), (⟨'a', '7'⟩, ⟨'a', '6'⟩),
     (⟨'d', '3'⟩, ⟨'e', '4'⟩)]

def g_c6_one : ChessVar := (run_moves initGame c6_moves_one).2
def g_c6_two : ChessVar := (run_moves initGame c6_moves_two).2

/-- The state of the two-knight game just before the second knight capture. -/
def g_c6_pre : ChessVar :=
  (run_moves initGame (c6_moves_one ++
    [(⟨'f', '6'⟩, ⟨'e', '4'⟩), (⟨'d', '1'⟩, ⟨'d', '3'⟩), (⟨'a', '7'⟩, ⟨'a', '6'⟩)])).2

/-- A state on White's turn (after `a2→a3`, `b7→b6`) with captured-for-white
record `['N']` populated the way the source's own test populates it; a2 is an
empty White home-rank square, so a first Falcon placement is accepted. -/
def g_c7 : ChessVar :=
  { (run_moves initGame [(⟨'a', '2'⟩, ⟨'a', '3'⟩), (⟨'b', '7'⟩, ⟨'b', '6'⟩)]).2 with
      captured_white := ['N'] }

/-! ## Structural lemmas about the embedded operations -/

lemma make_move_rejected_eq (g : ChessVar) (fs ts : Square) (b : Bool) (g' : ChessVar)
    (h : make_move g fs ts = (b, g')) (hb : b = false) : g' = g := by
  subst hb
  unfold make_move at h
  split at h
  · injection h with h1 h2; exact h2.symm
  · split at h
    · injection h with h1 h2; exact h2.symm
    · split at h
      · injection h with h1 h2; exact h2.symm
      · injection h with h1 h2; exact Bool.noConfusion h1

lemma enter_rejected_eq (g : ChessVar) (pt : Char) (sq : Square) (b : Bool) (g' : ChessVar)
    (h : enter_fairy_piece g pt sq = (b, g')) (hb : b = false) : g' = g := by
  subst hb
  unfold enter_fairy_piece at h
  split at h <;> split at h <;>
    first
      | (injection h with h1 h2; exact h2.symm)
      | (injection h with h1 h2; exact Bool.noConfusion h1)

lemma move_piece_turn (g : ChessVar) (f t : Pos) : (move_piece g f t).turn = g.turn := by
  unfold move_piece
  cases hc : boardGet g.board t
  · rfl
  · dsimp only
    split <;> rfl

lemma check_game_over_turn (g : ChessVar) (p : Pos) : (check_game_over g p).turn = g.turn := by
  unfold check_game_over
  cases hc : boardGet g.board p
  · rfl
  · dsimp only
    split <;> rfl

lemma make_move_accepted_parts (g : ChessVar) (fs ts : Square) (b : Bool) (g' : ChessVar)
    (h : make_move g fs ts = (b, g')) (hb : b = true) :
    g.game_state = "UNFINISHED" ∧
    ¬(boardGet g.board (convert_to_pos ts) ≠ none ∧
        pyIsUpper (boardGet g.board (convert_to_pos fs)) =
          pyIsUpper (boardGet g.board (convert_to_pos ts))) ∧
    is_legal_move g (convert_to_pos fs) (convert_to_pos ts) = true ∧
    g' = check_game_over
          (switch_turns (move_piece g (convert_to_pos fs) (convert_to_pos ts)))
          (convert_to_pos ts) := by
  subst hb
  unfold make_move at h
  split at h
  · injection h with h1 h2; exact Bool.noConfusion h1
  · next h1 =>
    split at h
    · injection h with h1 h2; exact Bool.noConfusion h1
    · next h2 =>
      split at h
      · injection h with h1 h2; exact Bool.noConfusion h1
      · next h3 =>
        injection h with _ h4
        refine ⟨by simpa using h1, h2, by simpa using h3, h4.symm⟩

lemma enter_accepted_parts (g : ChessVar) (pt : Char) (sq : Square) (b : Bool) (g' : ChessVar)
    (h : enter_fairy_piece g pt sq = (b, g')) (hb : b = true) :
    g.game_state = "UNFINISHED" ∧
    can_place_fairy_piece g pt sq = true ∧
    pt ∈ (if pt.isUpper then g.fairy_white else g.fairy_black) ∧
    is_square_empty g sq = true ∧
    g' = switch_turns
          (if pt.isUpper then
            { { g with board := boardSet g.board (convert_to_pos sq) (some pt) } with
                fairy_white := g.fairy_white.erase pt }
          else
            { { g with board := boardSet g.board (convert_to_pos sq) (some pt) } with
                fairy_black := g.fairy_black.erase pt }) := by
  subst hb
  unfold enter_fairy_piece at h
  split at h
  · next hu =>
    split at h
    · injection h with h1 h2; exact Bool.noConfusion h1
    · next h1 =>
      push_neg at h1
      obtain ⟨ha, hb', hc, hd⟩ := h1
      injection h with _ h2
      refine ⟨by simpa using ha, by simpa using hb', ?_, by simpa using hd, ?_⟩
      · rw [if_pos hu]; simpa using hc
      · rw [if_pos hu]; exact h2.symm
  · next hu =>
    split at h
    · injection h with h1 h2; exact Bool.noConfusion h1
    · next h1 =>
      push_neg at h1
      obtain ⟨ha, hb', hc, hd⟩ := h1
      injection h with _ h2
      refine ⟨by simpa using ha, by simpa using hb', ?_, by simpa using hd, ?_⟩
      · rw [if_neg hu]; simpa using hc
      · rw [if_neg hu]; exact h2.symm

lemma boardGet_boardSet_self (b : Board) (p : Pos) (v : Piece)
    (hp : 0 ≤ p.1 ∧ p.1 < 8 ∧ 0 ≤ p.2 ∧ p.2 < 8) : boardGet (boardSet b p v) p = v := by
  unfold boardGet boardSet
  rw [dif_pos hp, dif_pos hp]
  simp

lemma boardGet_boardSet_ne (b : Board) (p q : Pos) (v : Piece) (hne : p ≠ q) :
    boardGet (boardSet b p v) q = boardGet b q := by
  unfold boardGet boardSet
  by_cases hq : 0 ≤ q.1 ∧ q.1 < 8 ∧ 0 ≤ q.2 ∧ q.2 < 8
  · by_cases hp : 0 ≤ p.1 ∧ p.1 < 8 ∧ 0 ≤ p.2 ∧ p.2 < 8
    · rw [dif_pos hp, dif_pos hq, dif_pos hq]
      have hne' : ¬((⟨q.1.toNat, by omega⟩ : Fin 8) = (⟨p.1.toNat, by omega⟩ : Fin 8) ∧
          (⟨q.2.toNat, by omega⟩ : Fin 8) = (⟨p.2.toNat, by omega⟩ : Fin 8)) := by
        rintro ⟨h1, h2⟩
        have e1 : q.1.toNat = p.1.toNat := by simpa using congrArg Fin.val h1
        have e2 : q.2.toNat = p.2.toNat := by simpa using congrArg Fin.val h2
        exact hne (Prod.ext_iff.mpr ⟨by omega, by omega⟩)
      rw [if_neg hne']
    · rw [dif_neg hp]
  · rw [dif_neg hq, dif_neg hq]

lemma move_piece_board (g : ChessVar) (f t : Pos) :
    (move_piece g f t).board = boardSet (boardSet g.board t (boardGet g.board f)) f none := by
  simp only [move_piece]
  cases hc : boardGet g.board t <;> simp only [hc]
  split <;> rfl

lemma move_piece_state (g : ChessVar) (f t : Pos) :
    (move_piece g f t).game_state = g.game_state := by
  simp only [move_piece]
  cases hc : boardGet g.board t <;> simp only [hc]
  split <;> rfl

lemma check_game_over_eval (g : ChessVar) (p : Pos) (c : Char)
    (h : boardGet g.board p = some c) :
    (check_game_over g p).game_state =
      if c.toLower = 'k' then (if c.isUpper then "BLACK_WON" else "WHITE_WON")
      else g.game_state := by
  unfold check_game_over
  rw [h]
  dsimp only
  by_cases hk : c.toLower = 'k'
  · rw [if_pos hk, if_pos hk]
  · rw [if_neg hk, if_neg hk]

lemma is_legal_move_some (g : ChessVar) (f t : Pos) (h : is_legal_move g f t = true) :
    ∃ c, boardGet g.board f = some c := by
  cases hc : boardGet g.board f
  · unfold is_legal_move at h
    rw [hc] at h
    exact Bool.noConfusion h
  · exact ⟨_, rfl⟩

lemma convert_in_range (s : Square) (h : s.valid) :
    0 ≤ (convert_to_pos s).1 ∧ (convert_to_pos s).1 < 8 ∧
    0 ≤ (convert_to_pos s).2 ∧ (convert_to_pos s).2 < 8 := by
  obtain ⟨h1, h2, h3, h4⟩ := h
  unfold convert_to_pos
  refine ⟨?_, ?_, ?_, ?_⟩ <;> simp <;> omega

lemma path_walk_reaches (bd : Board) (to_ st : Pos) :
    ∀ (k : Nat) (cur : Pos) (fuel : Nat), k < fuel →
      cur.1 + k * st.1 = to_.1 → cur.2 + k * st.2 = to_.2 →
      (path_walk bd to_ st cur fuel).isSome = true := by
  intro k
  induction k with
  | zero =>
    intro cur fuel hf h1 h2
    obtain ⟨m, rfl⟩ : ∃ m, fuel = m + 1 := ⟨fuel - 1, by omega⟩
    have hc : cur = to_ := by
      simp only [Nat.cast_zero, zero_mul, add_zero] at h1 h2
      exact Prod.ext_iff.mpr ⟨h1, h2⟩
    simp [path_walk, hc]
  | succ k ih =>
    intro cur fuel hf h1 h2
    obtain ⟨m, rfl⟩ : ∃ m, fuel = m + 1 := ⟨fuel - 1, by omega⟩
    by_cases hc : cur = to_
    · simp [path_walk, hc]
    · simp only [path_walk]
      rw [if_neg hc]
      by_cases ho : boardGet bd cur ≠ none
      · rw [if_pos ho]; rfl
      · rw [if_neg ho]
        apply ih
        · omega
        · push_cast at h1 ⊢
          linear_combination h1
        · push_cast at h2 ⊢
          linear_combination h2

lemma step1_reach (a b : Int) (h : a ≠ b) :
    a + step1 a b + (((a - b).natAbs - 1 : Nat) : Int) * step1 a b = b := by
  unfold step1
  rcases lt_trichotomy a b with h' | h' | h'
  · rw [if_pos h', mul_one]
    omega
  · exact absurd h' h
  · rw [if_neg (by omega), if_pos h']
    rw [mul_neg_one]
    omega

lemma step1_self (a : Int) : step1 a a = 0 := by
  unfold step1
  rw [if_neg (by omega), if_neg (by omega)]

/-! ## Claim theorems -/

/-- C8: for every pair of distinct in-range squares on a common row, common
column, or common diagonal, the step-walk of `_path_is_clear` reaches the
destination within its fuel (the embedded loop yields a result, i.e. the
source's `while` loop terminates); `_is_legal_move` invokes `_path_is_clear`
only under a straight-move or diagonal-move guard, so every such call is of
this form. -/
theorem c8_path_walk_terminates (bd : Board) (f t : Pos)
    (hf : 0 ≤ f.1 ∧ f.1 < 8 ∧ 0 ≤ f.2 ∧ f.2 < 8)
    (ht : 0 ≤ t.1 ∧ t.1 < 8 ∧ 0 ≤ t.2 ∧ t.2 < 8)
    (hne : f ≠ t)
    (halign : is_straight_move f t = true ∨ is_diagonal_move f t = true) :
    (path_walk bd t (step1 f.1 t.1, step1 f.2 t.2)
      (f.1 + step1 f.1 t.1, f.2 + step1 f.2 t.2) 16).isSome = true := by
  obtain ⟨hf1, hf2, hf3, hf4⟩ := hf
  obtain ⟨ht1, ht2, ht3, ht4⟩ := ht
  have hcomp : f.1 ≠ t.1 ∨ f.2 ≠ t.2 := by
    by_contra hx
    push_neg at hx
    exact hne (Prod.ext_iff.mpr ⟨hx.1, hx.2⟩)
  rcases halign with hs | hd
  · simp only [is_straight_move, decide_eq_true_eq] at hs
    rcases hs with h1 | h2
    · have hc2 : f.2 ≠ t.2 := by tauto
      apply path_walk_reaches bd t (step1 f.1 t.1, step1 f.2 t.2) ((f.2 - t.2).natAbs - 1)
      · omega
      · dsimp only
        rw [h1, step1_self]
        simp
      · dsimp only
        exact step1_reach f.2 t.2 hc2
    · have hc1 : f.1 ≠ t.1 := by tauto
      apply path_walk_reaches bd t (step1 f.1 t.1, step1 f.2 t.2) ((f.1 - t.1).natAbs - 1)
      · omega
      · dsimp only
        exact step1_reach f.1 t.1 hc1
      · dsimp only
        rw [h2, step1_self]
        simp
  · simp only [is_diagonal_move, decide_eq_true_eq] at hd
    have hc1 : f.1 ≠ t.1 := by
      rcases hcomp with h | h
      · exact h
      · intro hx
        apply h
        omega
    have hc2 : f.2 ≠ t.2 := by
      intro hx
      apply hc1
      omega
    apply path_walk_reaches bd t (step1 f.1 t.1, step1 f.2 t.2) ((f.1 - t.1).natAbs - 1)
    · omega
    · dsimp only
      exact step1_reach f.1 t.1 hc1
    · dsimp only
      rw [hd]
      exact step1_reach f.2 t.2 hc2

/-- C8 witness: the initial board, queen's-file squares d1 → d6 (distinct,
in range, on a common column). -/
theorem c8_path_walk_terminates_witness :
    ((0 : Int) ≤ 7 ∧ (7 : Int) < 8 ∧ (0 : Int) ≤ 3 ∧ (3 : Int) < 8) ∧
    (path_walk create_initial_board (2, 3) (step1 7 2, step1 3 3)
      (7 + step1 7 2, 3 + step1 3 3) 16).isSome = true :=
  ⟨by decide,
    c8_path_walk_terminates create_initial_board (7, 3) (2, 3) (by decide) (by decide)
      (by decide) (Or.inl (by decide))⟩

/-- C3: whenever `make_move` or `enter_fairy_piece` returns `false`, the whole
game state — board grid, side to move, both captured-piece records, the
fairy-piece availability sets and the game-state value — is exactly the state
before the call (no partial mutation). -/
theorem c3_rejected_call_leaves_state_unchanged (g : ChessVar) (fs ts sq : Square)
    (pt : Char) :
    ((make_move g fs ts).1 = false → (make_move g fs ts).2 = g) ∧
    ((enter_fairy_piece g pt sq).1 = false → (enter_fairy_piece g pt sq).2 = g) :=
  ⟨fun h => make_move_rejected_eq g fs ts _ _ rfl h,
   fun h => enter_rejected_eq g pt sq _ _ rfl h⟩

/-- C3 witness: the illegal opening move e2→e5 and a fairy placement on the
occupied square d1 are both rejected from the initial state, which they leave
unchanged. -/
theorem c3_rejected_call_leaves_state_unchanged_witness :
    (make_move initGame ⟨'e', '2'⟩ ⟨'e', '5'⟩).1 = false ∧
    (make_move initGame ⟨'e', '2'⟩ ⟨'e', '5'⟩).2 = initGame ∧
    (enter_fairy_piece initGame 'F' ⟨'d', '1'⟩).1 = false ∧
    (enter_fairy_piece initGame 'F' ⟨'d', '1'⟩).2 = initGame :=
  ⟨by decide,
   (c3_rejected_call_leaves_state_unchanged initGame ⟨'e', '2'⟩ ⟨'e', '5'⟩ ⟨'d', '1'⟩ 'F').1
     (by decide),
   by decide,
   (c3_rejected_call_leaves_state_unchanged initGame ⟨'e', '2'⟩ ⟨'e', '5'⟩ ⟨'d', '1'⟩ 'F').2
     (by decide)⟩

lemma make_move_accepted_turn (g : ChessVar) (fs ts : Square)
    (h : (make_move g fs ts).1 = true) : (make_move g fs ts).2.turn = !g.turn := by
  obtain ⟨-, -, -, hG⟩ := make_move_accepted_parts g fs ts (make_move g fs ts).1 (make_move g fs ts).2 rfl h
  rw [hG, check_game_over_turn]
  have hsw : (switch_turns (move_piece g (convert_to_pos fs) (convert_to_pos ts))).turn =
      !(move_piece g (convert_to_pos fs) (convert_to_pos ts)).turn := rfl
  rw [hsw, move_piece_turn]

lemma enter_accepted_turn (g : ChessVar) (pt : Char) (sq : Square)
    (h : (enter_fairy_piece g pt sq).1 = true) :
    (enter_fairy_piece g pt sq).2.turn = !g.turn := by
  obtain ⟨-, -, -, -, hG⟩ := enter_accepted_parts g pt sq (enter_fairy_piece g pt sq).1 (enter_fairy_piece g pt sq).2 rfl h
  rw [hG]
  by_cases hu : pt.isUpper = true
  · rw [if_pos hu]; rfl
  · rw [if_neg hu]; rfl

/-- C4: the side to move flips on every accepted `make_move` (king captures
included — the source switches turns unconditionally before the game-over
check) and on every accepted `enter_fairy_piece`, and never changes on a
rejected call. -/
theorem c4_turn_alternates (g : ChessVar) (fs ts sq : Square) (pt : Char) :
    ((make_move g fs ts).1 = true → (make_move g fs ts).2.turn = !g.turn) ∧
    ((make_move g fs ts).1 = false → (make_move g fs ts).2.turn = g.turn) ∧
    ((enter_fairy_piece g pt sq).1 = true → (enter_fairy_piece g pt sq).2.turn = !g.turn) ∧
    ((enter_fairy_piece g pt sq).1 = false → (enter_fairy_piece g pt sq).2.turn = g.turn) :=
  ⟨make_move_accepted_turn g fs ts,
   fun h => by rw [make_move_rejected_eq g fs ts (make_move g fs ts).1 (make_move g fs ts).2 rfl h],
   enter_accepted_turn g pt sq,
   fun h => by rw [enter_rejected_eq g pt sq (enter_fairy_piece g pt sq).1 (enter_fairy_piece g pt sq).2 rfl h]⟩

/-- C4 witness: the accepted opening move e2→e4 flips White's turn to
Black's; the rejected move e2→e5 leaves the turn with White. -/
theorem c4_turn_alternates_witness :
    (make_move initGame ⟨'e', '2'⟩ ⟨'e', '4'⟩).1 = true ∧
    (make_move initGame ⟨'e', '2'⟩ ⟨'e', '4'⟩).2.turn = !initGame.turn ∧
    (make_move initGame ⟨'e', '2'⟩ ⟨'e', '5'⟩).1 = false ∧
    (make_move initGame ⟨'e', '2'⟩ ⟨'e', '5'⟩).2.turn = initGame.turn :=
  ⟨by decide,
   (c4_turn_alternates initGame ⟨'e', '2'⟩ ⟨'e', '4'⟩ ⟨'d', '1'⟩ 'F').1 (by decide),
   by decide,
   (c4_turn_alternates initGame ⟨'e', '2'⟩ ⟨'e', '5'⟩ ⟨'d', '1'⟩ 'F').2.1 (by decide)⟩

/-- C9: after any accepted `make_move` the game state changes iff the piece
that moved is itself a king (the game-over check reads the destination square
after the move has been applied, so it sees the mover); a moved White king
yields BLACK_WON and a moved Black king WHITE_WON, and any move by a non-king
piece — including one that captures a king — leaves the game state
'UNFINISHED'. -/
theorem c9_game_over_reads_moved_piece (g : ChessVar) (fs ts : Square)
    (hts : ts.valid) (hacc : (make_move g fs ts).1 = true) :
    ∃ c, boardGet g.board (convert_to_pos fs) = some c ∧
      ((make_move g fs ts).2.game_state ≠ g.game_state ↔ c.toLower = 'k') ∧
      (c.toLower = 'k' →
        (make_move g fs ts).2.game_state = (if c.isUpper then "BLACK_WON" else "WHITE_WON")) ∧
      (c.toLower ≠ 'k' → (make_move g fs ts).2.game_state = "UNFINISHED") := by
  obtain ⟨hU, hG2, hLegal, hEq⟩ := make_move_accepted_parts g fs ts (make_move g fs ts).1 (make_move g fs ts).2 rfl hacc
  obtain ⟨c, hc⟩ := is_legal_move_some g _ _ hLegal
  have htr := convert_in_range ts hts
  have hne : convert_to_pos fs ≠ convert_to_pos ts := by
    intro hx
    apply hG2
    refine ⟨?_, by rw [hx]⟩
    rw [← hx, hc]
    simp
  have hb : boardGet
      (move_piece g (convert_to_pos fs) (convert_to_pos ts)).board (convert_to_pos ts) =
      some c := by
    rw [move_piece_board, boardGet_boardSet_ne _ _ _ _ hne,
      boardGet_boardSet_self _ _ _ htr]
    exact hc
  have hb2 : boardGet
      (switch_turns (move_piece g (convert_to_pos fs) (convert_to_pos ts))).board
      (convert_to_pos ts) = some c := hb
  have hsg : (switch_turns
      (move_piece g (convert_to_pos fs) (convert_to_pos ts))).game_state = g.game_state :=
    move_piece_state g (convert_to_pos fs) (convert_to_pos ts)
  have hstate : (make_move g fs ts).2.game_state =
      if c.toLower = 'k' then (if c.isUpper then "BLACK_WON" else "WHITE_WON")
      else g.game_state := by
    rw [hEq, check_game_over_eval _ _ _ hb2, hsg]
  refine ⟨c, hc, ?_⟩
  rw [hstate, hU]
  by_cases hk : c.toLower = 'k'
  · rw [if_pos hk]
    refine ⟨⟨fun _ => hk, fun _ => ?_⟩, fun _ => rfl, fun hnk => absurd hk hnk⟩
    by_cases hup : c.isUpper = true
    · rw [if_pos hup]; decide
    · rw [if_neg hup]; decide
  · rw [if_neg hk]
    exact ⟨⟨fun hx => absurd rfl hx, fun hx => absurd hx hk⟩,
      fun hx => absurd hx hk, fun _ => rfl⟩

/-- C9 witness: the accepted opening move e2→e4 moves a pawn ('P'), so the
game state stays 'UNFINISHED'. -/
theorem c9_game_over_reads_moved_piece_witness :
    (make_move initGame ⟨'e', '2'⟩ ⟨'e', '4'⟩).1 = true ∧
    ∃ c, boardGet initGame.board (convert_to_pos ⟨'e', '2'⟩) = some c ∧
      ((make_move initGame ⟨'e', '2'⟩ ⟨'e', '4'⟩).2.game_state ≠ initGame.game_state ↔
        c.toLower = 'k') ∧
      (c.toLower = 'k' →
        (make_move initGame ⟨'e', '2'⟩ ⟨'e', '4'⟩).2.game_state =
          (if c.isUpper then "BLACK_WON" else "WHITE_WON")) ∧
      (c.toLower ≠ 'k' →
        (make_move initGame ⟨'e', '2'⟩ ⟨'e', '4'⟩).2.game_state = "UNFINISHED") :=
  ⟨by decide, c9_game_over_reads_moved_piece initGame ⟨'e', '2'⟩ ⟨'e', '4'⟩ (by decide)
    (by decide)⟩

/-- C1: refutation by evaluation. In the opening e2e4, e7e5, f1c4, d7d6,
c4xf7, a7a6 the accepted White move f7→e8 lands on the square holding the
Black king, yet the game state stays 'UNFINISHED' (not WHITE_WON) and the
turn is switched to Black: `_check_game_over` runs after the move is applied
and so inspects the mover (a bishop), not the captured king. -/
theorem c1_king_capture_not_detected :
    (run_moves initGame c1_moves).1 = true ∧
    boardGet g_c1.board (convert_to_pos ⟨'e', '8'⟩) = some 'k' ∧
    g_c1.turn = true ∧
    (make_move g_c1 ⟨'f', '7'⟩ ⟨'e', '8'⟩).1 = true ∧
    (make_move g_c1 ⟨'f', '7'⟩ ⟨'e', '8'⟩).2.game_state = "UNFINISHED" ∧
    (make_move g_c1 ⟨'f', '7'⟩ ⟨'e', '8'⟩).2.turn = false := by decide

/-- C2: refutation by evaluation. After g1f3, e7e5, f3xe5, d7d6, a2a3, d6xe5
Black has captured White's knight (the source records it as `'N'` under the
`'black'` key), it is White's turn, the Falcon is available and a2 is an
empty home-rank square — the first-placement gate of the claim is satisfied —
yet `enter_fairy_piece('F','a2')` returns false: `_move_piece` files White's
losses under the key that `_can_place_fairy_piece` never reads for White
(White's slot holds only the lowercase Black pawn `'p'` White captured). -/
theorem c2_fairy_gate_unreachable_through_play :
    (run_moves initGame c2_moves).1 = true ∧
    g_c2.turn = true ∧
    g_c2.captured_black = ['N'] ∧
    g_c2.captured_white = ['p'] ∧
    'F' ∈ g_c2.fairy_white ∧
    is_square_empty g_c2 ⟨'a', '2'⟩ = true ∧
    (enter_fairy_piece g_c2 'F' ⟨'a', '2'⟩).1 = false := by decide

/-- C5 counterexample: in `g_c5` it is Black's turn (`turn = false`), yet
White's Falcon placement on a2 is accepted — refuting the claim that
`enter_fairy_piece` rejects out-of-turn placements. -/
theorem c5_counterexample_out_of_turn_placement_accepted :
    g_c5.turn = false ∧ (enter_fairy_piece g_c5 'F' ⟨'a', '2'⟩).1 = true := by decide

/-- C5 amended: `enter_fairy_piece` performs no turn check at all — its
accept/reject decision is independent of the side to move (only the game
state, the capture gate, availability and square emptiness are consulted). -/
theorem c5_amended_no_turn_check (g : ChessVar) (t' : Bool) (pt : Char) (sq : Square) :
    (enter_fairy_piece { g with turn := t' } pt sq).1 = (enter_fairy_piece g pt sq).1 := by
  have hcp : can_place_fairy_piece { g with turn := t' } pt sq =
      can_place_fairy_piece g pt sq := rfl
  have hse : is_square_empty { g with turn := t' } sq = is_square_empty g sq := rfl
  unfold enter_fairy_piece
  dsimp only
  simp only [hcp, hse]
  split <;> split <;> rfl

/-- C6 counterexample: White captures one Black knight in `c6_moves_one` and
a second Black knight in the extension `c6_moves_two`, yet the two runs end
with identical captured-piece records (`['n']`) and identical fairy-piece
eligibility answers: the record is a Python set, so the duplicate capture is
not distinguishable. -/
theorem c6_counterexample_two_knights_equal_one :
    (run_moves initGame c6_moves_one).1 = true ∧
    (run_moves initGame c6_moves_two).1 = true ∧
    g_c6_one.captured_white = ['n'] ∧
    g_c6_two.captured_white = g_c6_one.captured_white ∧
    g_c6_two.captured_black = g_c6_one.captured_black ∧
    can_place_fairy_piece g_c6_two 'F' ⟨'d', '2'⟩ =
      can_place_fairy_piece g_c6_one 'F' ⟨'d', '2'⟩ := by decide

/-- C6 amended: the per-color captured record behaves as a set of captured
piece kinds, not a multiset — capturing a piece whose kind is already
recorded for the capturing side leaves both captured records unchanged. -/
theorem c6_amended_captured_record_is_set (g : ChessVar) (f t : Pos) (tp : Char)
    (h : boardGet g.board t = some tp)
    (h2 : (tp.isLower = true ∧ tp ∈ g.captured_white) ∨
          (tp.isLower = false ∧ tp ∈ g.captured_black)) :
    (move_piece g f t).captured_white = g.captured_white ∧
    (move_piece g f t).captured_black = g.captured_black := by
  simp only [move_piece, h]
  rcases h2 with ⟨hl, hm⟩ | ⟨hl, hm⟩
  · rw [if_pos hl]
    refine ⟨?_, rfl⟩
    show set_add g.captured_white tp = g.captured_white
    unfold set_add
    rw [if_pos hm]
  · rw [if_neg (by simp [hl])]
    refine ⟨rfl, ?_⟩
    show set_add g.captured_black tp = g.captured_black
    unfold set_add
    rw [if_pos hm]

/-- C6 amended, witness: in `g_c6_pre` a Black knight stands on e4 and `'n'`
is already in White's capture record; capturing it (queen d3×e4) leaves both
records unchanged. -/
theorem c6_amended_captured_record_is_set_witness :
    boardGet g_c6_pre.board (convert_to_pos ⟨'e', '4'⟩) = some 'n' ∧
    'n' ∈ g_c6_pre.captured_white ∧
    (move_piece g_c6_pre (convert_to_pos ⟨'d', '3'⟩)
      (convert_to_pos ⟨'e', '4'⟩)).captured_white = g_c6_pre.captured_white ∧
    (move_piece g_c6_pre (convert_to_pos ⟨'d', '3'⟩)
      (convert_to_pos ⟨'e', '4'⟩)).captured_black = g_c6_pre.captured_black :=
  ⟨by decide, by decide,
   (c6_amended_captured_record_is_set g_c6_pre (convert_to_pos ⟨'d', '3'⟩)
     (convert_to_pos ⟨'e', '4'⟩) 'n' (by decide) (Or.inl ⟨by decide, by decide⟩)).1,
   (c6_amended_captured_record_is_set g_c6_pre (convert_to_pos ⟨'d', '3'⟩)
     (convert_to_pos ⟨'e', '4'⟩) 'n' (by decide) (Or.inl ⟨by decide, by decide⟩)).2⟩

lemma can_place_rank_mem (g : ChessVar) (pt : Char) (sq : Square)
    (h : can_place_fairy_piece g pt sq = true) :
    sq.rank ∈ (if pt.isUpper then (['1', '2'] : List Char) else ['7', '8']) := by
  simp only [can_place_fairy_piece] at h
  by_cases hu : pt.isUpper = true
  · rw [if_pos hu]
    simp only [if_pos hu] at h
    split at h
    · exact Bool.noConfusion h
    · split at h
      · exact Bool.noConfusion h
      · next hn => exact not_not.mp hn
  · rw [if_neg hu]
    simp only [if_neg hu] at h
    split at h
    · exact Bool.noConfusion h
    · split at h
      · exact Bool.noConfusion h
      · next hn => exact not_not.mp hn

/-- C7: an accepted `enter_fairy_piece` call requires an empty target square
lying on the placing color's two home ranks (ranks 1–2 for White, 7–8 for
Black) with the requested kind still in that color's availability set, and on
success removes the kind from the set — so each color can place each of
Falcon and Hunter at most once per game. -/
theorem c7_fairy_entry_conditions (g : ChessVar) (pt : Char) (sq : Square)
    (hacc : (enter_fairy_piece g pt sq).1 = true) :
    is_square_empty g sq = true ∧
    sq.rank ∈ (if pt.isUpper then (['1', '2'] : List Char) else ['7', '8']) ∧
    pt ∈ (if pt.isUpper then g.fairy_white else g.fairy_black) ∧
    (pt.isUpper = true →
      (enter_fairy_piece g pt sq).2.fairy_white = g.fairy_white.erase pt ∧
      (enter_fairy_piece g pt sq).2.fairy_black = g.fairy_black) ∧
    (pt.isUpper = false →
      (enter_fairy_piece g pt sq).2.fairy_black = g.fairy_black.erase pt ∧
      (enter_fairy_piece g pt sq).2.fairy_white = g.fairy_white) := by
  obtain ⟨-, hcp, hmem, hemp, hG⟩ :=
    enter_accepted_parts g pt sq (enter_fairy_piece g pt sq).1 (enter_fairy_piece g pt sq).2
      rfl hacc
  refine ⟨hemp, can_place_rank_mem g pt sq hcp, hmem, ?_, ?_⟩
  · intro hu
    rw [hG, if_pos hu]
    exact ⟨rfl, rfl⟩
  · intro hu
    rw [hG, if_neg (by simp [hu])]
    exact ⟨rfl, rfl⟩

/-- C7 witness: in `g_c7` (White to move, `'N'` in the record that the gate
reads, a2 empty) the Falcon placement on a2 is accepted, and afterwards the
Falcon is no longer available to White. -/
theorem c7_fairy_entry_conditions_witness :
    (enter_fairy_piece g_c7 'F' ⟨'a', '2'⟩).1 = true ∧
    is_square_empty g_c7 ⟨'a', '2'⟩ = true ∧
    (⟨'a', '2'⟩ : Square).rank ∈
      (if ('F' : Char).isUpper then (['1', '2'] : List Char) else ['7', '8']) ∧
    'F' ∈ (if ('F' : Char).isUpper then g_c7.fairy_white else g_c7.fairy_black) ∧
    (('F' : Char).isUpper = true →
      (enter_fairy_piece g_c7 'F' ⟨'a', '2'⟩).2.fairy_white = g_c7.fairy_white.erase 'F' ∧
      (enter_fairy_piece g_c7 'F' ⟨'a', '2'⟩).2.fairy_black = g_c7.fairy_black) :=
  ⟨by decide,
   (c7_fairy_entry_conditions g_c7 'F' ⟨'a', '2'⟩ (by decide)).1,
   (c7_fairy_entry_conditions g_c7 'F' ⟨'a', '2'⟩ (by decide)).2.1,
   (c7_fairy_entry_conditions g_c7 'F' ⟨'a', '2'⟩ (by decide)).2.2.1,
   (c7_fairy_entry_conditions g_c7 'F' ⟨'a', '2'⟩ (by decide)).2.2.2.1⟩

/-- C10: a purely horizontal move (same row, nonzero column change) is
classified as backward for both fairy pieces: a Falcon's legality equals the
path-clearance of the rook-like sideways slide, while a Hunter's is always
false, since its backward rule demands a diagonal that a same-row move can
never satisfy. -/
theorem c10_horizontal_fairy_moves (g : ChessVar) (f t : Pos)
    (h1 : f.1 = t.1) (h2 : f.2 ≠ t.2) :
    (is_valid_fairy_piece_move g f t 'F' = path_is_clear g.board f t ∧
     is_valid_fairy_piece_move g f t 'f' = path_is_clear g.board f t) ∧
    (is_valid_fairy_piece_move g f t 'H' = false ∧
     is_valid_fairy_piece_move g f t 'h' = false) := by
  have hfw1 : decide (t.1 < f.1) = false := by simp [h1]
  have hfw2 : decide (t.1 > f.1) = false := by simp [h1]
  have hst : is_straight_move f t = true := by
    simp [is_straight_move, h1]
  have hdg : is_diagonal_move f t = false := by
    simp only [is_diagonal_move, decide_eq_false_iff_not]
    omega
  have e1 : ('F' : Char).isUpper = true := by decide
  have e2 : ('f' : Char).isUpper = false := by decide
  have e3 : ('H' : Char).isUpper = true := by decide
  have e4 : ('h' : Char).isUpper = false := by decide
  have e5 : ('F' : Char).toLower = 'f' := by decide
  have e6 : ('f' : Char).toLower = 'f' := by decide
  have e7 : ('H' : Char).toLower = 'h' := by decide
  have e8 : ('h' : Char).toLower = 'h' := by decide
  have e9 : ¬(('H' : Char).toLower = 'f') := by decide
  have e10 : ¬(('h' : Char).toLower = 'f') := by decide
  refine ⟨⟨?_, ?_⟩, ?_, ?_⟩ <;>
    simp [is_valid_fairy_piece_move, e1, e2, e3, e4, e5, e6, e7, e8, e9, e10,
      hfw1, hfw2, hst, hdg]

/-- C10 witness: on the initial board, the horizontal pair a4 → f4
(concretely `(4,0) → (4,5)`). -/
theorem c10_horizontal_fairy_moves_witness :
    is_valid_fairy_piece_move initGame ((4 : Int), (0 : Int)) ((4 : Int), (5 : Int)) 'F' =
      path_is_clear initGame.board ((4 : Int), (0 : Int)) ((4 : Int), (5 : Int)) ∧
    is_valid_fairy_piece_move initGame ((4 : Int), (0 : Int)) ((4 : Int), (5 : Int)) 'H' =
      false :=
  ⟨(c10_horizontal_fairy_moves initGame (4, 0) (4, 5) (by decide) (by decide)).1.1,
   (c10_horizontal_fairy_moves initGame (4, 0) (4, 5) (by decide) (by decide)).2.1⟩
